import Mathlib

/-!
Verification development for the collection2 write-path pipeline
(`src/collection2.js`): schema attachment and index setup, the custom
per-field validator (denyInsert / denyUpdate / uniqueness), the
`doValidate` cleaning-and-validation orchestration, the write wrappers,
and the duplicate-key callback translator `wrapCallbackForNotUnique`.

Modelling conventions:
* Host-language (JS) primitive values are `JSVal`; `undefined` and `null`
  are distinct constructors.  Truthiness follows JS: `""`, `0`, `false`,
  `null`, `undefined` are falsy.
* Collection documents are flat association lists `Doc`; queries are
  association lists of per-field constraints (`QC.eqv` for a plain value
  in a query object, `QC.nev` for an operator object of the shape
  `$ne: v`).  Matching a plain value means the field holds that value;
  `$ne` matches when the field does not hold the value (including when
  it is absent), which is how the count queries of the uniqueness rule
  behave on the documents exercised here.
* The schema engine (SimpleSchema) is outside this repository and is
  treated as a capability (`SchemaCap`): `clean` and `validate` are
  abstract function parameters, per the boundary the source consumes.
-/

namespace Collection2

/-- A JavaScript primitive value.  `undef` is `undefined`. -/
inductive JSVal where
  | str (s : String)
  | num (n : Int)
  | bool (b : Bool)
  | null
  | undef
deriving DecidableEq, Repr

/-- JS truthiness of a primitive value. -/
def jsTruthy : JSVal → Bool
  | .str s => s ≠ ""
  | .num n => n ≠ 0
  | .bool b => b
  | .null => false
  | .undef => false

/-! ## Field definitions and index setup (`c2AttachSchema`, lines 82-110) -/

/-- The value of a field definition's `index` option: the schema allows
`Number`, `String` or `Boolean` there. -/
inductive IndexSpec where
  | num (n : Int)
  | str (s : String)
  | bool (b : Bool)
deriving DecidableEq, Repr

/-- The per-field schema options this package reads (`index`, `unique`,
`denyInsert`, `denyUpdate`, `optional`).  Absent boolean options are
falsy, which `!!` in the source collapses to `false`. -/
structure FieldDef where
  index : Option IndexSpec := none
  unique : Bool := false
  denyInsert : Bool := false
  denyUpdate : Bool := false
  optional : Bool := false
deriving DecidableEq, Repr

/-- `if (indexValue === true) indexValue = 1;` (line 89-90). -/
def resolveIndexSpec (spec : IndexSpec) : IndexSpec :=
  if spec = .bool true then .num 1 else spec

/-- Options passed to `_ensureIndex` (lines 95-100). -/
structure EnsureOpts where
  background : Bool
  name : String
  unique : Bool
  sparse : Bool
deriving DecidableEq, Repr

/-- The storage call scheduled at startup for one indexed field. -/
inductive IndexAction where
  | ensure (keys : List (String × IndexSpec)) (opts : EnsureOpts)
  | drop (name : String)
deriving DecidableEq, Repr

/-- The startup body of the index loop of `c2AttachSchema` (lines 85-108),
for a field whose definition has an `index` entry `spec`. -/
def indexSetupAction (fieldName : String) (d : FieldDef) (spec : IndexSpec) : IndexAction :=
  let indexValue := resolveIndexSpec spec
  let indexName := "c2_" ++ fieldName
  let uniq := d.unique && (indexValue = .num 1 || indexValue = .num (-1))
  let sparse := d.optional && uniq
  if indexValue ≠ .bool false then
    .ensure [(fieldName, indexValue)]
      { background := true, name := indexName, unique := uniq, sparse := sparse }
  else
    .drop indexName

/-! ## Documents, queries and counts (the storage capability consumed by
the uniqueness rule: `find(...).count()` and `findOne(...)`) -/

/-- A stored document: a flat association list of fields. -/
abbrev Doc := List (String × JSVal)

/-- Field lookup (first binding wins, as JS object keys are unique). -/
def docGet : Doc → String → Option JSVal
  | [], _ => none
  | p :: t, k => if p.1 = k then some p.2 else docGet t k

/-- One field constraint of a query object: a plain value (equality) or
an operator object of the shape `$ne: v`. -/
inductive QC where
  | eqv (v : JSVal)
  | nev (v : JSVal)
deriving DecidableEq, Repr

/-- A query object: fields to constraints. -/
abbrev Query := List (String × QC)

/-- Whether a document satisfies one field constraint. -/
def qcHolds (d : Doc) : String × QC → Bool
  | (k, .eqv v) => docGet d k = some v
  | (k, .nev v) => docGet d k ≠ some v

/-- Whether a document matches every constraint of a query. -/
def docMatches (d : Doc) (q : Query) : Bool :=
  q.all (qcHolds d)

/-- `collection.find(q).count()`. -/
def countDocs (col : List Doc) (q : Query) : Nat :=
  (col.filter (fun d => docMatches d q)).length

/-- `collection.findOne(q)` seen as existence. -/
def findOneExists (col : List Doc) (q : Query) : Bool :=
  col.any (fun d => docMatches d q)

/-- The cached selector (`_c2._selector`): update/upsert callers pass
either an id string or a query object of plain values. -/
inductive SelVal where
  | strSel (s : String)
  | querySel (q : List (String × JSVal))
deriving DecidableEq, Repr

/-- JS truthiness of a selector value (`!sel`): an object is always
truthy, a string is falsy exactly when empty. -/
def selIfTruthy : Option SelVal → Option SelVal
  | none => none
  | some (.strSel s) => if s = "" then none else some (.strSel s)
  | some (.querySel q) => some (.querySel q)

/-- `if (typeof sel === "string") sel = \x7b_id: sel\x7d;` followed by reading
the selector as a query of plain (equality) values. -/
def selToQuery : SelVal → Query
  | .strSel s => [("_id", .eqv (.str s))]
  | .querySel q => q.map (fun p => (p.1, .eqv p.2))

/-- `sel[key] = \x7b$ne: val\x7d` — JS assignment overwrites an existing
binding for `key`, else appends one. -/
def setQC (q : Query) (k : String) (c : QC) : Query :=
  if q.any (fun p => p.1 = k) then
    q.map (fun p => if p.1 = k then (k, c) else p)
  else
    q ++ [(k, c)]

/-! ## The custom validator (`ss.validator`, lines 113-175) -/

/-- The validation context fields the validator reads: `this.definition`,
`this.value`, `this.operator`, `this.key`. -/
structure VCtx where
  definition : FieldDef
  value : JSVal
  operator : Option String
  key : String
deriving DecidableEq, Repr

/-- Result of one validator invocation: `true` or an error-type string. -/
inductive VRes where
  | valid
  | invalid (errType : String)
deriving DecidableEq, Repr

/-- A storage query issued by the validator (for observing that a run
performed no count or lookup). -/
inductive VQuery where
  | countQ (q : Query)
  | findOneQ (q : Query)
deriving DecidableEq, Repr

/-- JS truthiness of `this.operator` (`!op`): absent or empty is falsy. -/
def opTruthy : Option String → Bool
  | none => false
  | some s => s ≠ ""

/-- `[1, -1, true].indexOf(def.index) !== -1` (line 143): strict equality
against the raw index spec. -/
def indexUsable : Option IndexSpec → Bool
  | some (.num 1) => true
  | some (.num (-1)) => true
  | some (.bool true) => true
  | _ => false

/-- The custom validator registered by `c2AttachSchema` (lines 113-175).
Returns the validation result together with the storage queries the run
performed.  `cachedSelector` is `self._c2._selector`;
`skipClientUniqueCheck` is `self._skipClientUniqueCheck`. -/
def ssValidator (col : List Doc) (cachedSelector : Option SelVal)
    (skipClientUniqueCheck : Bool) (isServer : Bool) (ctx : VCtx) :
    VRes × List VQuery :=
  let d := ctx.definition
  let val := ctx.value
  let op := ctx.operator
  if d.denyInsert && val ≠ .undef && !opTruthy op then
    (.invalid "insertNotAllowed", [])
  else if d.denyUpdate && opTruthy op && (op ≠ some "$set" || val ≠ .undef) then
    (.invalid "updateNotAllowed", [])
  else if d.unique && !skipClientUniqueCheck then
    if val = .undef || val = .null then
      (.valid, [])
    else if isServer && indexUsable d.index then
      (.valid, [])
    else
      let test : Query := [(ctx.key, .eqv val)]
      if opTruthy op && op ≠ some "$inc" then
        match selIfTruthy cachedSelector with
        | none => (.valid, [])
        | some sel =>
          let totalUsing := countDocs col test
          let sel2 := setQC (selToQuery sel) ctx.key (.nev val)
          let totalWillUse := countDocs col sel2
          (if totalUsing + totalWillUse > 1 then .invalid "notUnique" else .valid,
           [.countQ test, .countQ sel2])
      else
        (if findOneExists col test then .invalid "notUnique" else .valid,
         [.findOneQ test])
  else
    (.valid, [])

/-- The count the claim's words describe for updates: documents matched
by the cached selector itself whose value for the field differs from the
proposed value.  (The source instead counts against the selector with
its constraint on the field overwritten by `$ne`.) -/
def claimCountWillAdopt (col : List Doc) (sel : SelVal) (key : String) (v : JSVal) : Nat :=
  (col.filter (fun d => docMatches d (selToQuery sel) && docGet d key ≠ some v)).length

/-! ## The duplicate-key callback translator (`wrapCallbackForNotUnique`,
lines 477-493) -/

/-- Whether the first list occurs at the head of the second. -/
def startsWithChars : List Char → List Char → Bool
  | [], _ => true
  | _ :: _, [] => false
  | p :: ps, c :: cs => p = c && startsWithChars ps cs

/-- Index of the first occurrence of `pat` in `s`, `-1` when absent —
JS `String.prototype.indexOf`. -/
def idxOfChars (pat : List Char) : List Char → Int
  | [] => if startsWithChars pat [] then 0 else -1
  | s@(_ :: t) =>
    if startsWithChars pat s then 0
    else
      let r := idxOfChars pat t
      if r = -1 then -1 else r + 1

/-- `s.indexOf(pat)`. -/
def strIndexOf (s pat : String) : Int :=
  idxOfChars pat.data s.data

/-- The error object handed to the storage completion callback. -/
structure StorageError where
  name : String
  code : Option Int
  message : String
deriving DecidableEq, Repr

/-- The guard of `wrapCallbackForNotUnique` (line 479), exactly as the
source writes it: error is truthy, and either the error is a MongoError
with code 11001 or the second disjunct holds, and the message contains
the substring "c2_".  In the source the second disjunct reads
`error.message.indexOf(...)` where the argument is the comparison
`"MongoError: E11000" !== -1` — the `!== -1` sits inside the `indexOf`
argument, so the argument is the boolean `true`, which `indexOf`
coerces to the string `"true"`; the resulting number is then used for
its truthiness (falsy only when it is `0`). -/
def shouldTranslate : Option StorageError → Bool
  | none => false
  | some e =>
    ((e.name = "MongoError" && e.code = some 11001)
      || strIndexOf e.message "true" ≠ 0)
    && strIndexOf e.message "c2_" ≠ -1

/-- The condition the spec describes for translation: a storage-level
duplicate-key error (the intent behind line 479: a MongoError with
code 11001, or a message carrying `MongoError: E11000`) whose message
references a `c2_`-named index. -/
def specDuplicateKeyTranslate : Option StorageError → Bool
  | none => false
  | some e =>
    ((e.name = "MongoError" && e.code = some 11001)
      || strIndexOf e.message "MongoError: E11000" ≠ -1)
    && strIndexOf e.message "c2_" ≠ -1

/-- The characters before the first occurrence of `sep` (the whole list
when `sep` does not occur). -/
def takeUntilMatch (sep : List Char) : List Char → List Char
  | [] => []
  | s@(c :: t) => if startsWithChars sep s then [] else c :: takeUntilMatch sep t

/-- The characters after the first occurrence of `sep` (empty when
`sep` does not occur). -/
def dropThroughMatch (sep : List Char) : List Char → List Char
  | [] => []
  | s@(_ :: t) =>
    if startsWithChars sep s then s.drop sep.length
    else dropThroughMatch sep t

/-- `error.message.split("c2_")[1].split(" ")[0]` (line 480): the text
between the first `c2_` and the following space (or next `c2_`). -/
def extractFieldName (msg : String) : String :=
  let piece := takeUntilMatch "c2_".data (dropThroughMatch "c2_".data msg.data)
  String.mk (takeUntilMatch " ".data piece)

/-- One invalid-key record of a validation context. -/
structure InvalidKey where
  name : String
  type : String
  value : Option JSVal
  message : String
deriving DecidableEq, Repr

/-- One run of the callback returned by `wrapCallbackForNotUnique`
(lines 478-492): given the document, the context's current invalid-key
list, the schema's `messageForError` capability and the storage error,
yields the context's invalid-key list after the run together with the
error forwarded to the user's callback (always the original one:
`cb.apply(this, arguments)`). -/
def wrapCallbackForNotUnique (doc : Doc) (invalidKeys : List InvalidKey)
    (messageForError : String → String → Option JSVal → String)
    (error : Option StorageError) : List InvalidKey × Option StorageError :=
  if shouldTranslate error then
    match error with
    | some e =>
      let fName := extractFieldName e.message
      let fVal := docGet doc fName
      (invalidKeys ++
        [{ name := fName, type := "notUnique", value := fVal,
           message := messageForError "notUnique" fName fVal }],
       error)
    | none => (invalidKeys, error)
  else
    (invalidKeys, error)

/-! ## The `doValidate` orchestration (lines 313-475) and the write
wrappers (lines 288-307) -/

/-- A value of a document or modifier field: a primitive, or a one-level
object (as `$set`'s value in a modifier or the merged selector object). -/
inductive FieldVal where
  | prim (v : JSVal)
  | objV (fields : List (String × JSVal))
deriving DecidableEq, Repr

/-- A document or modifier as handed to `doValidate`. -/
abbrev MDoc := List (String × FieldVal)

def mdocGet : MDoc → String → Option FieldVal
  | [], _ => none
  | p :: t, k => if p.1 = k then some p.2 else mdocGet t k

/-- `delete doc[k]`. -/
def mdocRemove (d : MDoc) (k : String) : MDoc :=
  d.filter (fun p => p.1 ≠ k)

/-- `doc[k] = v`: overwrites the binding for `k` when one exists (JS
object keys are unique), else appends one. -/
def mdocSet : MDoc → String → FieldVal → MDoc
  | [], k, v => [(k, v)]
  | p :: t, k, v => if p.1 = k then (k, v) :: t else p :: mdocSet t k v

/-- JS truthiness of a field value: objects are always truthy. -/
def fieldTruthy : FieldVal → Bool
  | .prim v => jsTruthy v
  | .objV _ => true

def fieldTruthyOpt : Option FieldVal → Bool
  | none => false
  | some v => fieldTruthy v

/-- The operation kind. -/
inductive WType where
  | insert
  | update
  | upsert
deriving DecidableEq, Repr

def wTypeName : WType → String
  | .insert => "insert"
  | .update => "update"
  | .upsert => "upsert"

/-- The named write options this pipeline reads. -/
structure WOptions where
  validate : Option Bool := none
  upsert : Option Bool := none
  validationContext : Option String := none
deriving DecidableEq, Repr

/-- One positional argument of a wrapped write call: a document or
modifier, a selector, an options object, or a callback function. -/
inductive AVal where
  | docA (d : MDoc)
  | selA (s : SelVal)
  | optsA (o : WOptions)
  | fnA
deriving DecidableEq, Repr

/-- `typeof x === "function"` on an argument slot. -/
def isFn : Option AVal → Bool
  | some .fnA => true
  | _ => false

/-- Read an argument slot as the document/modifier; a slot that does not
hold one is modelled as the empty document. -/
def argDocD : Option AVal → MDoc
  | some (.docA d) => d
  | _ => []

/-- `if (!callback && typeof options === "function") ... ;
options = options || \x7b\x7d;` (lines 348-352): yields whether a callback is
present after the shuffle, and the resolved options object. -/
def normalizeOpts (optA cbA : Option AVal) : Bool × WOptions :=
  if !cbA.isSome && isFn optA then (true, {})
  else
    (cbA.isSome,
     match optA with
     | some (.optsA o) => o
     | _ => {})

/-- The state `doValidate` has gathered by line 352: the (possibly
reshaped) argument list, the document/modifier, the resolved options,
whether a caller-supplied callback is present, and the cached selector
(`self._c2._selector` after lines 323-345). -/
structure ParsedCall where
  args1 : List AVal
  doc : MDoc
  opts : WOptions
  callbackPresent : Bool
  selCache : Option SelVal
deriving DecidableEq, Repr

/-- Argument gathering of `doValidate` (lines 318-352).  `none` models
the `throw` on an empty argument list. -/
def parseCall (type : WType) (args : List AVal) : Option ParsedCall :=
  if args.isEmpty then none
  else some (match type with
  | .insert =>
    let doc := argDocD args[0]?
    let optA := args[1]?
    let cbA := args[2]?
    let args1 := if isFn optA then [.docA doc, .fnA]
      else if isFn cbA then [.docA doc, .fnA]
      else [.docA doc]
    let pr := normalizeOpts optA cbA
    { args1 := args1, doc := doc, opts := pr.2, callbackPresent := pr.1,
      selCache := none }
  | .update | .upsert =>
    let selCache := match args[0]? with
      | some (AVal.selA s) => some s
      | _ => none
    let doc := argDocD args[1]?
    let pr := normalizeOpts args[2]? args[3]?
    { args1 := args, doc := doc, opts := pr.2, callbackPresent := pr.1,
      selCache := selCache })

/-- Options handed to `schema.clean` by `doClean` (lines 382-398). -/
structure CleanOpts where
  filter : Bool
  autoConvert : Bool
  getAutoValues : Bool
  isModifier : Bool
  isInsert : Bool
  isUpdate : Bool
  isUpsert : Bool
  userId : Option String
  isFromTrustedCode : Bool
deriving DecidableEq, Repr

/-- Options handed to `ctx.validate` (lines 427-437). -/
structure ValidateOpts where
  modifier : Bool
  upsert : Bool
  isInsert : Bool
  isUpdate : Bool
  isUpsert : Bool
  userId : Option String
  isFromTrustedCode : Bool
deriving DecidableEq, Repr

/-- `upsert` option resolution (line 359). -/
def isUpsertOf (type : WType) (opts : WOptions) : Bool :=
  type = .upsert || (type = .update && opts.upsert = some true)

/-- The `CleanOpts` built by `doClean` from its three boolean arguments
(`getAutoValues`, `filter`, `autoConvert`). -/
def mkCleanOpts (type : WType) (opts : WOptions) (userId : Option String)
    (trusted : Bool) (getAutoValues filter autoConvert : Bool) : CleanOpts :=
  { filter := filter, autoConvert := autoConvert, getAutoValues := getAutoValues,
    isModifier := type ≠ .insert,
    isInsert := type = .insert,
    isUpdate := type = .update && opts.upsert ≠ some true,
    isUpsert := isUpsertOf type opts,
    userId := userId, isFromTrustedCode := trusted }

/-- The `ValidateOpts` built at lines 427-437. -/
def mkValidateOpts (type : WType) (opts : WOptions) (userId : Option String)
    (trusted : Bool) : ValidateOpts :=
  { modifier := type = .update || type = .upsert,
    upsert := isUpsertOf type opts,
    isInsert := type = .insert,
    isUpdate := type = .update && opts.upsert ≠ some true,
    isUpsert := isUpsertOf type opts,
    userId := userId, isFromTrustedCode := trusted }

/-- The schema capability `doValidate` consumes: `allowsKey("_id")`,
cleaning, context validation (yielding validity plus the context's
invalid keys), and `keyErrorMessage`. -/
structure SchemaCap where
  allowsId : Bool
  clean : CleanOpts → MDoc → MDoc
  validate : MDoc → ValidateOpts → Bool × List InvalidKey
  keyErrorMessage : String → String

/-- A record of one `schema.clean` invocation: whether it targeted the
validation snapshot (rather than the live document), its input, and the
three variable cleaning flags. -/
structure CleanCall where
  snapshot : Bool
  input : MDoc
  getAutoValues : Bool
  filter : Bool
  autoConvert : Bool
deriving DecidableEq, Repr

/-- The `Error` built on validation failure (lines 466-467). -/
structure MError where
  message : String
  invalidKeys : List InvalidKey
deriving DecidableEq, Repr

/-- How `doValidate` leaves its caller: the usage `throw` (line 319),
the `validate: false` early return (line 355), the success return of
the updated argument list (line 458), callback delivery of a validation
error (line 470), or throwing it (line 472). -/
inductive DVOutcome where
  | throwUsage (msg : String)
  | passthrough (args : List AVal)
  | success (args : List AVal)
  | failedCallback (e : MError)
  | failedThrow (e : MError)
deriving DecidableEq, Repr

/-- Everything observable about one `doValidate` run: its outcome, the
live document object's final state, `_c2._selector` afterwards, the
cleaning invocations performed, the snapshot submitted to validation
and the validation verdict, whether a callback (supplied or
synthesized) existed, and whether the forwarded callback was wrapped by
`wrapCallbackForNotUnique`. -/
structure DVResult where
  outcome : DVOutcome
  finalDoc : MDoc
  finalSelector : Option SelVal
  cleanCalls : List CleanCall
  validated : Option MDoc
  validationResult : Option (Bool × List InvalidKey)
  hadCallback : Bool
  wrappedCallback : Bool
deriving DecidableEq, Repr

/-- `obj[k] = v` on a plain object. -/
def assocSetJ : List (String × JSVal) → String → JSVal → List (String × JSVal)
  | [], k, v => [(k, v)]
  | p :: t, k, v => if p.1 = k then (k, v) :: t else p :: assocSetJ t k v

/-- `_.extend(target, source)`: copy every binding of `source` onto
`target`, overwriting on collision. -/
def extendAssocJ (target source : List (String × JSVal)) :
    List (String × JSVal) :=
  source.foldl (fun t p => assocSetJ t p.1 p.2) target

/-- Lines 412-414: `var set = docToValidate.$set || \x7b\x7d;
docToValidate.$set = _.clone(selector); _.extend(docToValidate.$set, set);`
— the snapshot's `$set` becomes the selector's fields with the existing
`$set` entries taking precedence. -/
def mergeSelIntoSet (d : MDoc) (selQ : List (String × JSVal)) : MDoc :=
  let oldSet : List (String × JSVal) :=
    match mdocGet d "$set" with
    | some (.objV l) => l
    | _ => []
  mdocSet d "$set" (.objV (extendAssocJ selQ oldSet))

/-- The intermediate values of one full validation pass (lines 358-437):
`doc1` is the live document after the `_id` detach, `doc2` after the
preliminary clean, `dv1` the snapshot after the upsert-selector merge,
`dv2` the snapshot submitted to validation. -/
structure PipeState where
  isUpsert : Bool
  hadCallback : Bool
  detach : Bool
  idVal : Option FieldVal
  doc1 : MDoc
  doc2 : MDoc
  dv1 : MDoc
  dv2 : MDoc
  cleanCalls : List CleanCall
  vres : Bool × List InvalidKey

/-- Lines 358-437 of `doValidate`, from upsert determination through
`ctx.validate`, for a call that was not diverted by `validate: false`. -/
def pipeline (isServer : Bool) (schema : SchemaCap) (type : WType) (pc : ParsedCall)
    (skipAutoValue : Bool) (userId : Option String) (trusted : Bool) : PipeState :=
  let isUp := isUpsertOf type pc.opts
  let hadCallback := pc.callbackPresent || !isServer
  let detach := isServer && fieldTruthyOpt (mdocGet pc.doc "_id") && !schema.allowsId
  let idVal := if detach then mdocGet pc.doc "_id" else none
  let doc1 := if detach then mdocRemove pc.doc "_id" else pc.doc
  let doc2 := schema.clean
    (mkCleanOpts type pc.opts userId trusted (isServer && !skipAutoValue) true true) doc1
  let call1 : CleanCall :=
    { snapshot := false, input := doc1,
      getAutoValues := isServer && !skipAutoValue, filter := true, autoConvert := true }
  let dv1 := if isServer && isUp then
      match pc.selCache with
      | some (.querySel q) => mergeSelIntoSet doc2 q
      | _ => doc2
    else doc2
  let dv2 := if !isServer then
      schema.clean (mkCleanOpts type pc.opts userId trusted true false false) dv1
    else dv1
  let calls2 : List CleanCall := if !isServer then
      [{ snapshot := true, input := dv1,
         getAutoValues := true, filter := false, autoConvert := false }]
    else []
  { isUpsert := isUp, hadCallback := hadCallback, detach := detach, idVal := idVal,
    doc1 := doc1, doc2 := doc2, dv1 := dv1, dv2 := dv2,
    cleanCalls := [call1] ++ calls2,
    vres := schema.validate dv2 (mkValidateOpts type pc.opts userId trusted) }

/-- Lines 443-446: the `_id` is added back (only on the success path). -/
def finalDocOf (s : PipeState) : MDoc :=
  match s.idVal with
  | some v => mdocSet s.doc2 "_id" v
  | none => s.doc2

/-- Lines 447-452: the argument list with the cleaned document written
back (slot 0 for insert, slot 1 for update/upsert). -/
def argsOutOf (type : WType) (pc : ParsedCall) (s : PipeState) : List AVal :=
  if type = .insert then pc.args1.set 0 (.docA (finalDocOf s))
  else pc.args1.set 1 (.docA (finalDocOf s))

/-- Lines 460-467: the validation error, its message naming the first
offending field when one exists. -/
def mkValidationError (schema : SchemaCap) (ks : List InvalidKey) : MError :=
  match ks with
  | [] => { message := "failed validation", invalidKeys := ks }
  | k :: _ =>
    { message := "failed validation: " ++ k.name ++ ": " ++ schema.keyErrorMessage k.name,
      invalidKeys := ks }

/-- `doValidate` after argument gathering (lines 354-474). -/
def doValidateCore (isServer : Bool) (schema : SchemaCap) (type : WType) (pc : ParsedCall)
    (skipAutoValue : Bool) (userId : Option String) (trusted : Bool) : DVResult :=
  if pc.opts.validate = some false then
    { outcome := .passthrough pc.args1, finalDoc := pc.doc, finalSelector := pc.selCache,
      cleanCalls := [], validated := none, validationResult := none,
      hadCallback := pc.callbackPresent, wrappedCallback := false }
  else
    let s := pipeline isServer schema type pc skipAutoValue userId trusted
    if s.vres.1 then
      let argsOut := argsOutOf type pc s
      { outcome := .success argsOut, finalDoc := finalDocOf s, finalSelector := none,
        cleanCalls := s.cleanCalls, validated := some s.dv2,
        validationResult := some s.vres, hadCallback := s.hadCallback,
        wrappedCallback := isFn argsOut.getLast? }
    else
      let err := mkValidationError schema s.vres.2
      { outcome := if s.hadCallback then .failedCallback err else .failedThrow err,
        finalDoc := s.doc2, finalSelector := none,
        cleanCalls := s.cleanCalls, validated := some s.dv2,
        validationResult := some s.vres, hadCallback := s.hadCallback,
        wrappedCallback := false }

/-- `doValidate` (lines 313-475).  `prevSelector` is the value
`_c2._selector` held before the call: the empty-argument `throw`
(line 318-320) happens before the reset at line 323, so that path alone
leaves it untouched. -/
def doValidate (isServer : Bool) (schema : SchemaCap) (type : WType) (args : List AVal)
    (skipAutoValue : Bool) (userId : Option String) (trusted : Bool)
    (prevSelector : Option SelVal) : DVResult :=
  match parseCall type args with
  | none =>
    { outcome := .throwUsage (wTypeName type ++ " requires an argument"),
      finalDoc := [], finalSelector := prevSelector, cleanCalls := [],
      validated := none, validationResult := none, hadCallback := false,
      wrappedCallback := false }
  | some pc => doValidateCore isServer schema type pc skipAutoValue userId trusted

/-- How a wrapped write method leaves its caller (lines 290-306). -/
inductive WriteResult where
  | storageCall (args : List AVal)
  | insertIdReturn
  | plainReturn
  | errorThrown
deriving DecidableEq, Repr

/-- The wrapped `insert`/`update`/`upsert` (lines 288-307), for a
collection with an attached schema: forwards the argument list
`doValidate` returns to the underlying method, or returns early (a
fresh id for insert, nothing otherwise) when `doValidate` already
delivered the error, or lets a thrown error propagate. -/
def wrappedWrite (isServer : Bool) (schema : SchemaCap) (type : WType) (args : List AVal)
    (skipAutoValue : Bool) (userId : Option String) (trusted : Bool)
    (prevSelector : Option SelVal) : WriteResult :=
  let r := doValidate isServer schema type args skipAutoValue userId trusted prevSelector
  match r.outcome with
  | .passthrough a => .storageCall a
  | .success a => .storageCall a
  | .failedCallback _ => if type = .insert then .insertIdReturn else .plainReturn
  | .failedThrow _ => .errorThrown
  | .throwUsage _ => .errorThrown

/-! ## Concrete instances used to exercise the embedding -/

/-- A schema capability whose cleaning is the identity and whose
validation always succeeds. -/
def okSchema : SchemaCap :=
  { allowsId := false, clean := fun _ d => d,
    validate := fun _ _ => (true, []), keyErrorMessage := fun _ => "msg" }

/-- A schema capability whose cleaning is the identity and whose
validation always fails with one invalid key (a missing required
`name`). -/
def failSchema : SchemaCap :=
  { allowsId := false, clean := fun _ d => d,
    validate := fun _ _ =>
      (false, [{ name := "name", type := "required", value := none, message := "required" }]),
    keyErrorMessage := fun k => k ++ " is required" }

/-- A collection holding one document with `points = 5`. -/
def pointsCol : List Doc := [[("points", JSVal.num 5)]]

/-- A `$inc` of a `unique` field whose (delta) value `5` is already
present in `pointsCol`. -/
def incCtx : VCtx :=
  { definition := { unique := true }, value := .num 5,
    operator := some "$inc", key := "points" }

/-- Three documents with distinct values of the unique field `code`. -/
def codeCol : List Doc :=
  [[("code", JSVal.str "X")], [("code", JSVal.str "Y")], [("code", JSVal.str "Z")]]

/-- An update selector constraining the very field being checked. -/
def codeSel : SelVal := .querySel [("code", .str "X")]

/-- A `$set` of the unique field `code` to `"X"`. -/
def codeCtx : VCtx :=
  { definition := { unique := true }, value := .str "X",
    operator := some "$set", key := "code" }

/-- A storage error that is not a duplicate-key error but whose message
mentions a `c2_`-named index. -/
def nonDupError : StorageError :=
  { name := "WriteConflict", code := none,
    message := "lock timeout on index c2_name while writing" }

/-- The caller-supplied document behind `nonDupError`'s write. -/
def nameDoc : Doc := [("name", .str "joe")]

/-- An insert payload carrying an `_id` and a `name`. -/
def idNameDoc : MDoc := [("_id", .prim (.str "a")), ("name", .prim (.str "joe"))]

/-! # Theorems -/

/-- C10: for a field with an index specification, the scheduled
index-ensure call passes `unique: true` exactly when the field's
definition sets the `unique` flag and the resolved index direction is
`1` or `-1` (a boolean `true` spec resolving to `1`), and passes
`sparse: true` exactly when additionally the field is declared
`optional`. -/
theorem c10_index_ensure_unique_sparse (fieldName : String) (d : FieldDef) (spec : IndexSpec)
    (keys : List (String × IndexSpec)) (opts : EnsureOpts)
    (_hidx : d.index = some spec)
    (hact : indexSetupAction fieldName d spec = .ensure keys opts) :
    (opts.unique = true ↔
      (d.unique = true ∧ (resolveIndexSpec spec = .num 1 ∨ resolveIndexSpec spec = .num (-1)))) ∧
    (opts.sparse = true ↔ (opts.unique = true ∧ d.optional = true)) := by
  simp only [indexSetupAction] at hact
  split at hact
  · injection hact with hk ho
    subst ho
    constructor
    · simp [Bool.and_eq_true, Bool.or_eq_true, decide_eq_true_eq]
    · simp [Bool.and_eq_true, Bool.or_eq_true, decide_eq_true_eq]
      tauto
  · exact absurd hact (by simp)

/-- Witness for C10, at a `unique`, `optional` field with `index: true`
(resolving to direction `1`): the ensure call carries
`unique: true, sparse: true`. -/
theorem c10_witness :
    ((({ background := true, name := "c2_name", unique := true, sparse := true } : EnsureOpts)).unique = true ↔
      ((({ index := some (.bool true), unique := true, optional := true } : FieldDef)).unique = true ∧
        (resolveIndexSpec (.bool true) = .num 1 ∨ resolveIndexSpec (.bool true) = .num (-1)))) ∧
    ((({ background := true, name := "c2_name", unique := true, sparse := true } : EnsureOpts)).sparse = true ↔
      ((({ background := true, name := "c2_name", unique := true, sparse := true } : EnsureOpts)).unique = true ∧
        (({ index := some (.bool true), unique := true, optional := true } : FieldDef)).optional = true)) :=
  c10_index_ensure_unique_sparse "name"
    { index := some (.bool true), unique := true, optional := true } (.bool true)
    [("name", .num 1)]
    { background := true, name := "c2_name", unique := true, sparse := true }
    rfl (by decide)

/-- C6: with `denyUpdate` set, any modifier-operator assignment of a
value yields `updateNotAllowed`, with exactly one exception: `$set`
assigning `undefined` passes (no-op). -/
theorem c6_denyUpdate_rule (col : List Doc) (sel : Option SelVal) (skip isServer : Bool)
    (ctx : VCtx) (hdu : ctx.definition.denyUpdate = true) (hop : opTruthy ctx.operator = true) :
    (¬(ctx.operator = some "$set" ∧ ctx.value = .undef) →
      ssValidator col sel skip isServer ctx = (.invalid "updateNotAllowed", [])) ∧
    ((ctx.operator = some "$set" ∧ ctx.value = .undef) →
      ssValidator col sel skip isServer ctx = (.valid, [])) := by
  have hopv : opTruthy (some "$set") = true := by decide
  constructor
  · intro hne
    by_cases h1 : ctx.operator = some "$set"
    · have h2 : ctx.value ≠ .undef := fun hv => hne ⟨h1, hv⟩
      simp [ssValidator, hdu, h1, h2, hopv]
    · simp [ssValidator, hdu, hop, h1]
  · rintro ⟨h1, h2⟩
    simp [ssValidator, hdu, h1, h2, hopv]

/-- Witness for C6: `$set` of the defined value `5` on a `denyUpdate`
field is rejected with `updateNotAllowed`. -/
theorem c6_witness :
    ssValidator [] none false true
      { definition := { denyUpdate := true }, value := .num 5, operator := some "$set", key := "f" } =
      (.invalid "updateNotAllowed", []) :=
  (c6_denyUpdate_rule [] none false true
    { definition := { denyUpdate := true }, value := .num 5, operator := some "$set", key := "f" }
    rfl (by decide)).1 (by decide)

/-- C2 counterexample: for the `$inc` update `incCtx` of the unique
field `points` (defined non-null delta `5`, no usable server index),
the validator is not bypassed: it performs a lookup query and reports
`notUnique`, because `$inc` falls into the insert-style `findOne`
branch of the rule (line 170). -/
theorem c2_counterexample :
    (ssValidator pointsCol none false true incCtx).1 = .invalid "notUnique" ∧
    (ssValidator pointsCol none false true incCtx).2 ≠ [] := by decide

/-- C2 (amended): a `$inc` update of a unique field with a defined
non-null value and no usable server-side index bypasses only the
selector-based counting check; the validator still runs the
insert-style check — one `findOne` lookup for the field holding the
delta value — and reports `notUnique` exactly when a document with
that value exists. -/
theorem c2_inc_insert_style_check (col : List Doc) (sel : Option SelVal) (isServer : Bool)
    (ctx : VCtx)
    (hu : ctx.definition.unique = true)
    (hdu : ctx.definition.denyUpdate = false)
    (hop : ctx.operator = some "$inc")
    (hv1 : ctx.value ≠ .undef) (hv2 : ctx.value ≠ .null)
    (hidx : (isServer && indexUsable ctx.definition.index) = false) :
    ssValidator col sel false isServer ctx =
      ((if findOneExists col [(ctx.key, .eqv ctx.value)] then .invalid "notUnique" else .valid),
       [.findOneQ [(ctx.key, .eqv ctx.value)]]) := by
  simp [ssValidator, hu, hdu, hop, hv1, hv2, hidx, opTruthy]

/-- Witness for C2 (amended): a `$inc` on the client with delta `5`
against a collection holding only `points = 7` runs the `findOne`
lookup and reports no violation. -/
theorem c2_amended_witness :
    ssValidator [[("points", JSVal.num 7)]] none false false
      { definition := { unique := true }, value := .num 5, operator := some "$inc", key := "points" } =
      ((if findOneExists [[("points", JSVal.num 7)]] [("points", .eqv (.num 5))]
        then .invalid "notUnique" else .valid),
       [.findOneQ [("points", .eqv (.num 5))]]) :=
  c2_inc_insert_style_check [[("points", JSVal.num 7)]] none false
    { definition := { unique := true }, value := .num 5, operator := some "$inc", key := "points" }
    rfl rfl rfl (by decide) (by decide) (by decide)

/-- C5 counterexample: updating `code` to `"X"` with the selector
already constraining `code = "X"`, over `codeCol`: the claim's formula
gives `countMatchingValue + countWillAdopt = 1 + 0 ≤ 1` (no violation),
yet the validator reports `notUnique` — line 163 overwrites the
selector's own constraint on the field with `$ne`. -/
theorem c5_counterexample :
    (ssValidator codeCol (some codeSel) false true codeCtx).1 = .invalid "notUnique" ∧
    countDocs codeCol [("code", .eqv (.str "X"))] +
      claimCountWillAdopt codeCol codeSel "code" (.str "X") ≤ 1 := by decide

/-- C5 (amended): for updates/upserts of a unique field with a defined
non-null value and no usable server index, when a (truthy) selector is
cached the validator reports `notUnique` iff
`countMatchingValue + countWillAdopt > 1`, where `countWillAdopt`
counts documents matched by the selector with its constraint on the
checked field *replaced* by `field ≠ value` (a string selector standing
for `_id = selector`); with no truthy cached selector it reports no
violation. -/
theorem c5_update_unique_count (col : List Doc) (cachedSel : Option SelVal) (isServer : Bool)
    (ctx : VCtx)
    (hu : ctx.definition.unique = true)
    (hdu : ctx.definition.denyUpdate = false)
    (hopT : opTruthy ctx.operator = true)
    (hopInc : ctx.operator ≠ some "$inc")
    (hv1 : ctx.value ≠ .undef) (hv2 : ctx.value ≠ .null)
    (hidx : (isServer && indexUsable ctx.definition.index) = false) :
    (selIfTruthy cachedSel = none →
      ssValidator col cachedSel false isServer ctx = (.valid, [])) ∧
    (∀ sel, selIfTruthy cachedSel = some sel →
      ssValidator col cachedSel false isServer ctx =
        ((if countDocs col [(ctx.key, .eqv ctx.value)] +
             countDocs col (setQC (selToQuery sel) ctx.key (.nev ctx.value)) > 1
          then .invalid "notUnique" else .valid),
         [.countQ [(ctx.key, .eqv ctx.value)],
          .countQ (setQC (selToQuery sel) ctx.key (.nev ctx.value))])) := by
  have hden : (ctx.definition.denyUpdate && opTruthy ctx.operator &&
      (ctx.operator ≠ some "$set" || ctx.value ≠ JSVal.undef)) = false := by
    simp [hdu]
  constructor
  · intro hsel
    simp [ssValidator, hu, hdu, hopT, hopInc, hv1, hv2, hidx, hsel]
  · intro sel hsel
    simp [ssValidator, hu, hdu, hopT, hopInc, hv1, hv2, hidx, hsel]

/-- Witness for C5 (amended): an update of unique `code` to `"W"` with
selector `status = "open"` over `codeCol` runs both counts and reports
no violation. -/
theorem c5_amended_witness :
    (selIfTruthy (some (SelVal.querySel [("status", .str "open")])) = none →
      ssValidator codeCol (some (SelVal.querySel [("status", .str "open")])) false false
        { definition := { unique := true }, value := .str "W", operator := some "$set", key := "code" } =
        (.valid, [])) ∧
    (∀ sel, selIfTruthy (some (SelVal.querySel [("status", .str "open")])) = some sel →
      ssValidator codeCol (some (SelVal.querySel [("status", .str "open")])) false false
        { definition := { unique := true }, value := .str "W", operator := some "$set", key := "code" } =
        ((if countDocs codeCol [("code", .eqv (.str "W"))] +
             countDocs codeCol (setQC (selToQuery sel) "code" (.nev (.str "W"))) > 1
          then .invalid "notUnique" else .valid),
         [.countQ [("code", .eqv (.str "W"))],
          .countQ (setQC (selToQuery sel) "code" (.nev (.str "W")))])) :=
  c5_update_unique_count codeCol (some (SelVal.querySel [("status", .str "open")])) false
    { definition := { unique := true }, value := .str "W", operator := some "$set", key := "code" }
    rfl rfl (by decide) (by decide) (by decide) (by decide) (by decide)

/-- C1: the translation guard of `wrapCallbackForNotUnique` is buggy —
line 479 places `!== -1` inside the `indexOf` argument, so the disjunct
tests the message for the substring `"true"` and is then used for
truthiness (falsy only at position 0).  Consequently `nonDupError`,
which is not a duplicate-key error (per the condition the spec
describes), still satisfies the guard and gets a synthetic `notUnique`
invalid key appended — the original error is forwarded, but not with
zero records appended. -/
theorem c1_translator_condition_bug :
    shouldTranslate (some nonDupError) = true ∧
    specDuplicateKeyTranslate (some nonDupError) = false ∧
    (wrapCallbackForNotUnique nameDoc [] (fun _ _ _ => "m") (some nonDupError)).1 =
      [{ name := "name", type := "notUnique", value := some (.str "joe"), message := "m" }] ∧
    (wrapCallbackForNotUnique nameDoc [] (fun _ _ _ => "m") (some nonDupError)).2 =
      some nonDupError := by decide

/-! ### Helper lemmas about document field access -/

theorem mdocGet_remove (d : MDoc) (k : String) : mdocGet (mdocRemove d k) k = none := by
  induction d with
  | nil => rfl
  | cons p t ih =>
    by_cases h : p.1 = k
    · simpa [mdocRemove, h] using ih
    · simpa [mdocRemove, mdocGet, h] using ih

theorem mdocGet_set_self (d : MDoc) (k : String) (v : FieldVal) :
    mdocGet (mdocSet d k v) k = some v := by
  induction d with
  | nil => simp [mdocSet, mdocGet]
  | cons p t ih =>
    by_cases h : p.1 = k
    · simp [mdocSet, mdocGet, h]
    · simpa [mdocSet, mdocGet, h] using ih

theorem mdocGet_set_ne (d : MDoc) (k k' : String) (v : FieldVal) (h : k' ≠ k) :
    mdocGet (mdocSet d k v) k' = mdocGet d k' := by
  induction d with
  | nil => simp [mdocSet, mdocGet, Ne.symm h]
  | cons p t ih =>
    by_cases hp : p.1 = k
    · simp [mdocSet, mdocGet, hp, Ne.symm h]
    · simp [mdocSet, mdocGet, hp, ih]

theorem mdocGet_mergeSelIntoSet_id (d : MDoc) (q : List (String × JSVal)) :
    mdocGet (mergeSelIntoSet d q) "_id" = mdocGet d "_id" := by
  unfold mergeSelIntoSet
  exact mdocGet_set_ne _ "$set" "_id" _ (by decide)

/-- Argument gathering for an insert whose second argument is an
options object: the parsed call keeps the caller's document and
options. -/
theorem parseCall_insert_opts (args : List AVal) (d : MDoc) (o : WOptions)
    (hd : args[0]? = some (.docA d)) (ho : args[1]? = some (.optsA o)) :
    parseCall .insert args = some
      { args1 := if isFn args[2]? then [.docA d, .fnA] else [.docA d],
        doc := d, opts := o,
        callbackPresent := args[2]?.isSome, selCache := none } := by
  have hne : args.isEmpty = false := by cases args <;> simp_all
  simp [parseCall, hne, hd, ho, normalizeOpts, argDocD, isFn]

/-! ### C7: lifetime of the cached selector -/

/-- C7 counterexample: an update called with `validate: false` — a path
by which `doValidate` returns to its caller (the early return at
line 355) — leaves the parsed selector cached (`_c2._selector` was set
at line 339 and the early return precedes the clearing at line 440). -/
theorem c7_counterexample :
    (doValidate true okSchema .update
        [.selA (.strSel "a"), .docA [("x", .prim (.num 1))], .optsA { validate := some false }]
        false none true none).outcome =
      .passthrough
        [.selA (.strSel "a"), .docA [("x", .prim (.num 1))], .optsA { validate := some false }] ∧
    (doValidate true okSchema .update
        [.selA (.strSel "a"), .docA [("x", .prim (.num 1))], .optsA { validate := some false }]
        false none true none).finalSelector = some (.strSel "a") := by decide

/-- C7 (amended): `doValidate` resets the cached selector on entry and
sets it for update/upsert; on every return path that proceeds past the
`validate: false` check, the cached selector is null by the time it
returns.  (The `validate: false` early return of an update/upsert is
the exception the counterexample exhibits.) -/
theorem c7_selector_cleared (isServer : Bool) (schema : SchemaCap) (type : WType)
    (args : List AVal) (pc : ParsedCall) (skip : Bool) (userId : Option String)
    (trusted : Bool) (prevSel : Option SelVal)
    (hparse : parseCall type args = some pc)
    (hval : pc.opts.validate ≠ some false) :
    (doValidate isServer schema type args skip userId trusted prevSel).finalSelector = none := by
  simp only [doValidate, hparse, doValidateCore, if_neg hval]
  split <;> rfl

/-- Witness for C7 (amended): a concrete validated client insert ends
with the cached selector cleared. -/
theorem c7_witness :
    (doValidate false okSchema .insert [.docA [("x", .prim (.num 1))]]
      false none false none).finalSelector = none :=
  c7_selector_cleared false okSchema .insert [.docA [("x", .prim (.num 1))]]
    { args1 := [.docA [("x", .prim (.num 1))]], doc := [("x", .prim (.num 1))],
      opts := {}, callbackPresent := false, selCache := none }
    false none false none (by decide) (by decide)

/-! ### C8: insert with `validate: false` -/

/-- C8: an insert called with `validate: false` bypasses the whole
pipeline — no cleaning, no validation snapshot, no callback wrapping,
the live document untouched — and the wrapper forwards the caller's
document to the underlying storage insert unmodified (as the first
element of the passed-through argument list). -/
theorem c8_insert_validate_false_passthrough (isServer : Bool) (schema : SchemaCap)
    (args : List AVal) (d : MDoc) (o : WOptions) (skip : Bool) (userId : Option String)
    (trusted : Bool) (prevSel : Option SelVal)
    (hd : args[0]? = some (.docA d))
    (ho : args[1]? = some (.optsA o))
    (hv : o.validate = some false) :
    (doValidate isServer schema .insert args skip userId trusted prevSel).cleanCalls = [] ∧
    (doValidate isServer schema .insert args skip userId trusted prevSel).validated = none ∧
    (doValidate isServer schema .insert args skip userId trusted prevSel).wrappedCallback = false ∧
    (doValidate isServer schema .insert args skip userId trusted prevSel).finalDoc = d ∧
    ∃ rest,
      (doValidate isServer schema .insert args skip userId trusted prevSel).outcome =
        .passthrough (.docA d :: rest) ∧
      wrappedWrite isServer schema .insert args skip userId trusted prevSel =
        .storageCall (.docA d :: rest) := by
  have hparse := parseCall_insert_opts args d o hd ho
  simp only [doValidate, wrappedWrite, hparse, doValidateCore, hv]
  by_cases hfn : isFn args[2]? = true
  · exact ⟨rfl, rfl, rfl, rfl, [.fnA], by simp [hfn], by simp [hfn]⟩
  · simp only [Bool.not_eq_true] at hfn
    exact ⟨rfl, rfl, rfl, rfl, [], by simp [hfn], by simp [hfn]⟩

/-- Witness for C8: a concrete insert with `validate: false` and a
callback reaches storage with the raw document. -/
theorem c8_witness :
    (doValidate true okSchema .insert
      [.docA idNameDoc, .optsA { validate := some false }, .fnA]
      false none true none).cleanCalls = [] ∧
    (doValidate true okSchema .insert
      [.docA idNameDoc, .optsA { validate := some false }, .fnA]
      false none true none).validated = none ∧
    (doValidate true okSchema .insert
      [.docA idNameDoc, .optsA { validate := some false }, .fnA]
      false none true none).wrappedCallback = false ∧
    (doValidate true okSchema .insert
      [.docA idNameDoc, .optsA { validate := some false }, .fnA]
      false none true none).finalDoc = idNameDoc ∧
    ∃ rest,
      (doValidate true okSchema .insert
        [.docA idNameDoc, .optsA { validate := some false }, .fnA]
        false none true none).outcome = .passthrough (.docA idNameDoc :: rest) ∧
      wrappedWrite true okSchema .insert
        [.docA idNameDoc, .optsA { validate := some false }, .fnA]
        false none true none = .storageCall (.docA idNameDoc :: rest) :=
  c8_insert_validate_false_passthrough true okSchema
    [.docA idNameDoc, .optsA { validate := some false }, .fnA]
    idNameDoc { validate := some false } false none true none rfl rfl rfl

/-! ### C9: delivery of validation failure -/

/-- C9: when validation fails (with at least one invalid key), the
error carries the full invalid-key list and a message naming the first
offending field; it is delivered through the callback as
`(error, false)` when a callback (supplied or synthesized) exists and
thrown otherwise; `doValidate` yields no argument list, so the wrapped
write never invokes the underlying storage call. -/
theorem c9_failure_delivery (isServer : Bool) (schema : SchemaCap) (type : WType)
    (args : List AVal) (skip : Bool) (userId : Option String) (trusted : Bool)
    (prevSel : Option SelVal) (k : InvalidKey) (ks : List InvalidKey)
    (h : (doValidate isServer schema type args skip userId trusted prevSel).validationResult =
      some (false, k :: ks)) :
    ((doValidate isServer schema type args skip userId trusted prevSel).hadCallback = true →
      (doValidate isServer schema type args skip userId trusted prevSel).outcome =
        .failedCallback
          { message := "failed validation: " ++ k.name ++ ": " ++ schema.keyErrorMessage k.name,
            invalidKeys := k :: ks }) ∧
    ((doValidate isServer schema type args skip userId trusted prevSel).hadCallback = false →
      (doValidate isServer schema type args skip userId trusted prevSel).outcome =
        .failedThrow
          { message := "failed validation: " ++ k.name ++ ": " ++ schema.keyErrorMessage k.name,
            invalidKeys := k :: ks }) ∧
    (∀ a, wrappedWrite isServer schema type args skip userId trusted prevSel ≠
      .storageCall a) := by
  unfold wrappedWrite
  cases hparse : parseCall type args with
  | none => simp [doValidate, hparse] at h
  | some pc =>
    simp only [doValidate, hparse] at h ⊢
    by_cases hv : pc.opts.validate = some false
    · simp [doValidateCore, hv] at h
    · simp only [doValidateCore, if_neg hv] at h ⊢
      by_cases hb : (pipeline isServer schema type pc skip userId trusted).vres.1 = true
      · rw [if_pos hb] at h
        have hres : (pipeline isServer schema type pc skip userId trusted).vres = (false, k :: ks) := by
          simpa using h
        rw [hres] at hb
        simp at hb
      · rw [if_neg hb] at h ⊢
        have hres : (pipeline isServer schema type pc skip userId trusted).vres = (false, k :: ks) := by
          simpa using h
        refine ⟨?_, ?_, ?_⟩
        · intro hcb
          have hcb' : (pipeline isServer schema type pc skip userId trusted).hadCallback = true := hcb
          simp [hcb', hres, mkValidationError]
        · intro hcb
          have hcb' : (pipeline isServer schema type pc skip userId trusted).hadCallback = false := hcb
          simp [hcb', hres, mkValidationError]
        · intro a
          by_cases hcb : (pipeline isServer schema type pc skip userId trusted).hadCallback = true
          · simp only [hcb]
            simp only [if_true, eq_self_iff_true]
            split <;> simp
          · simp [hcb]

/-- Witness for C9: a concrete failing server insert (no callback)
throws the error naming the missing `name` field, and the wrapper never
reaches storage. -/
theorem c9_witness :
    ((doValidate true failSchema .insert [.docA idNameDoc] false none true none).hadCallback = true →
      (doValidate true failSchema .insert [.docA idNameDoc] false none true none).outcome =
        .failedCallback
          { message := "failed validation: " ++ "name" ++ ": " ++ failSchema.keyErrorMessage "name",
            invalidKeys := [{ name := "name", type := "required", value := none, message := "required" }] }) ∧
    ((doValidate true failSchema .insert [.docA idNameDoc] false none true none).hadCallback = false →
      (doValidate true failSchema .insert [.docA idNameDoc] false none true none).outcome =
        .failedThrow
          { message := "failed validation: " ++ "name" ++ ": " ++ failSchema.keyErrorMessage "name",
            invalidKeys := [{ name := "name", type := "required", value := none, message := "required" }] }) ∧
    (∀ a, wrappedWrite true failSchema .insert [.docA idNameDoc] false none true none ≠
      .storageCall a) := by
  have h := c9_failure_delivery true failSchema .insert [.docA idNameDoc] false none true none
    { name := "name", type := "required", value := none, message := "required" } [] (by decide)
  exact h

/-! ### C3: `_id` detachment and restoration -/

/-- C3 counterexample: a failing server insert of `idNameDoc` (which
carries `_id` not allowed by the schema).  Validation fails, and
afterwards the live document has lost its `_id`: the restore at
lines 443-446 sits inside the `isValid` branch only, so on the failure
path `_id` is not restored, contradicting "both when validation
succeeds and when validation fails". -/
theorem c3_counterexample :
    (doValidate true failSchema .insert [.docA idNameDoc] false none true none).validationResult =
      some (false, [{ name := "name", type := "required", value := none, message := "required" }]) ∧
    mdocGet (doValidate true failSchema .insert [.docA idNameDoc] false none true none).finalDoc
      "_id" = none ∧
    mdocGet idNameDoc "_id" = some (.prim (.str "a")) := by decide

/-- C3 (amended): on a server-side write whose document carries a
(truthy) `_id` not declared as an allowed schema key, `doValidate`
removes `_id` before cleaning, so no cleaning input and no validation
snapshot carries it (granted a schema whose cleaning never introduces
`_id`); when validation succeeds the live document gets `_id` back with
its original value; when validation fails the live document is left
with `_id` still removed. -/
theorem c3_id_detach_restore (schema : SchemaCap) (type : WType) (args : List AVal)
    (pc : ParsedCall) (skip : Bool) (userId : Option String) (trusted : Bool)
    (prevSel : Option SelVal)
    (hparse : parseCall type args = some pc)
    (hval : pc.opts.validate ≠ some false)
    (hAllows : schema.allowsId = false)
    (hClean : ∀ co d, mdocGet d "_id" = none → mdocGet (schema.clean co d) "_id" = none)
    (hId : fieldTruthyOpt (mdocGet pc.doc "_id") = true) :
    (∀ c ∈ (doValidate true schema type args skip userId trusted prevSel).cleanCalls,
       mdocGet c.input "_id" = none) ∧
    (∀ dv, (doValidate true schema type args skip userId trusted prevSel).validated = some dv →
       mdocGet dv "_id" = none) ∧
    (∀ ks, (doValidate true schema type args skip userId trusted prevSel).validationResult =
        some (true, ks) →
       mdocGet (doValidate true schema type args skip userId trusted prevSel).finalDoc "_id" =
         mdocGet pc.doc "_id") ∧
    (∀ ks, (doValidate true schema type args skip userId trusted prevSel).validationResult =
        some (false, ks) →
       mdocGet (doValidate true schema type args skip userId trusted prevSel).finalDoc "_id" =
         none) := by
  obtain ⟨v, hvsome⟩ : ∃ v, mdocGet pc.doc "_id" = some v := by
    cases hm : mdocGet pc.doc "_id" with
    | none => rw [hm] at hId; simp [fieldTruthyOpt] at hId
    | some v => exact ⟨v, rfl⟩
  have hdvfact : ∀ (b : Bool) (sc : Option SelVal) (D : MDoc), mdocGet D "_id" = none →
      mdocGet (if b then (match sc with
        | some (SelVal.querySel q) => mergeSelIntoSet D q
        | _ => D) else D) "_id" = none := by
    intro b sc D hD
    cases b
    · simpa using hD
    · cases sc with
      | none => simpa using hD
      | some sv => cases sv with
        | strSel t => simpa using hD
        | querySel q => simpa [mdocGet_mergeSelIntoSet_id] using hD
  simp only [doValidate, hparse, doValidateCore, if_neg hval]
  set s := pipeline true schema type pc skip userId trusted with hs
  have hcalls : s.cleanCalls =
      [{ snapshot := false, input := mdocRemove pc.doc "_id",
         getAutoValues := !skip, filter := true, autoConvert := true }] := by
    rw [hs]; simp [pipeline, hId, hAllows]
  have hidv : s.idVal = mdocGet pc.doc "_id" := by
    rw [hs]; simp [pipeline, hId, hAllows]
  have hd2 : mdocGet s.doc2 "_id" = none := by
    rw [hs]; simp [pipeline, hId, hAllows]
    exact hClean _ _ (mdocGet_remove _ _)
  have hdv2 : mdocGet s.dv2 "_id" = none := by
    rw [hs]; simp [pipeline, hId, hAllows]
    exact hdvfact _ _ _ (hClean _ _ (mdocGet_remove _ _))
  by_cases hb : s.vres.1 = true
  · rw [if_pos hb]
    refine ⟨?_, ?_, ?_, ?_⟩
    · intro c hc
      rw [hcalls] at hc
      simp at hc
      subst hc
      exact mdocGet_remove _ _
    · intro dv hdv'
      have : dv = s.dv2 := by simpa using hdv'.symm
      rw [this]
      exact hdv2
    · intro ks _
      show mdocGet (finalDocOf s) "_id" = mdocGet pc.doc "_id"
      unfold finalDocOf
      rw [hidv, hvsome]
      rw [mdocGet_set_self]
    · intro ks hks
      have : s.vres = (false, ks) := by simpa using hks
      rw [this] at hb
      simp at hb
  · rw [if_neg hb]
    refine ⟨?_, ?_, ?_, ?_⟩
    · intro c hc
      rw [hcalls] at hc
      simp at hc
      subst hc
      exact mdocGet_remove _ _
    · intro dv hdv'
      have : dv = s.dv2 := by simpa using hdv'.symm
      rw [this]
      exact hdv2
    · intro ks hks
      have : s.vres = (true, ks) := by simpa using hks
      rw [this] at hb
      simp at hb
    · intro ks _
      exact hd2

/-- Witness for C3 (amended): a concrete successful server insert of
`idNameDoc` under the always-valid schema. -/
theorem c3_witness :
    (∀ c ∈ (doValidate true okSchema .insert [.docA idNameDoc] false none true none).cleanCalls,
       mdocGet c.input "_id" = none) ∧
    (∀ dv, (doValidate true okSchema .insert [.docA idNameDoc] false none true none).validated =
        some dv → mdocGet dv "_id" = none) ∧
    (∀ ks, (doValidate true okSchema .insert [.docA idNameDoc] false none true none).validationResult =
        some (true, ks) →
       mdocGet (doValidate true okSchema .insert [.docA idNameDoc] false none true none).finalDoc
         "_id" = mdocGet idNameDoc "_id") ∧
    (∀ ks, (doValidate true okSchema .insert [.docA idNameDoc] false none true none).validationResult =
        some (false, ks) →
       mdocGet (doValidate true okSchema .insert [.docA idNameDoc] false none true none).finalDoc
         "_id" = none) :=
  c3_id_detach_restore okSchema .insert [.docA idNameDoc]
    { args1 := [.docA idNameDoc], doc := idNameDoc, opts := {},
      callbackPresent := false, selCache := none }
    false none true none (by decide) (by decide) rfl (fun _ _ h => h) (by decide)

/-! ### C4: the client-side snapshot cleaning pass -/

/-- C4 counterexample: on a client insert, the second cleaning pass
(the snapshot-only one at line 422, `doClean(docToValidate, true,
false, false)`) runs with `autoConvert: false` — it computes
auto-values but performs no type coercion, contradicting "performs both
type coercion and auto-value computation". -/
theorem c4_counterexample :
    ((doValidate false okSchema .insert [.docA [("x", .prim (.num 1))]] false none false
        none).cleanCalls.getD 1
      { snapshot := false, input := [], getAutoValues := false, filter := false,
        autoConvert := false }).snapshot = true ∧
    ((doValidate false okSchema .insert [.docA [("x", .prim (.num 1))]] false none false
        none).cleanCalls.getD 1
      { snapshot := false, input := [], getAutoValues := false, filter := false,
        autoConvert := false }).getAutoValues = true ∧
    ((doValidate false okSchema .insert [.docA [("x", .prim (.num 1))]] false none false
        none).cleanCalls.getD 1
      { snapshot := false, input := [], getAutoValues := false, filter := false,
        autoConvert := false }).autoConvert = false := by decide

/-- C4 (amended): in an untrusted (client) execution context,
`doValidate` performs exactly two cleaning passes: the preliminary one
on the live document (filtering and type coercion, no auto-values on
the client) and an additional snapshot-only pass with auto-value
computation enabled but filtering and type coercion disabled; the
validated snapshot is the extra-cleaned document while the live
document keeps only the preliminary clean. -/
theorem c4_client_snapshot_clean (schema : SchemaCap) (type : WType) (args : List AVal)
    (pc : ParsedCall) (skip : Bool) (userId : Option String) (trusted : Bool)
    (prevSel : Option SelVal)
    (hparse : parseCall type args = some pc)
    (hval : pc.opts.validate ≠ some false) :
    (doValidate false schema type args skip userId trusted prevSel).cleanCalls =
      [{ snapshot := false, input := pc.doc, getAutoValues := false, filter := true,
         autoConvert := true },
       { snapshot := true,
         input := schema.clean (mkCleanOpts type pc.opts userId trusted false true true) pc.doc,
         getAutoValues := true, filter := false, autoConvert := false }] ∧
    (doValidate false schema type args skip userId trusted prevSel).validated =
      some (schema.clean (mkCleanOpts type pc.opts userId trusted true false false)
        (schema.clean (mkCleanOpts type pc.opts userId trusted false true true) pc.doc)) ∧
    (doValidate false schema type args skip userId trusted prevSel).finalDoc =
      schema.clean (mkCleanOpts type pc.opts userId trusted false true true) pc.doc := by
  simp only [doValidate, hparse, doValidateCore, if_neg hval]
  set s := pipeline false schema type pc skip userId trusted with hs
  have hcalls : s.cleanCalls =
      [{ snapshot := false, input := pc.doc, getAutoValues := false, filter := true,
         autoConvert := true },
       { snapshot := true,
         input := schema.clean (mkCleanOpts type pc.opts userId trusted false true true) pc.doc,
         getAutoValues := true, filter := false, autoConvert := false }] := by
    rw [hs]; simp [pipeline]
  have hdv2 : s.dv2 = schema.clean (mkCleanOpts type pc.opts userId trusted true false false)
      (schema.clean (mkCleanOpts type pc.opts userId trusted false true true) pc.doc) := by
    rw [hs]; simp [pipeline]
  have hd2 : s.doc2 = schema.clean (mkCleanOpts type pc.opts userId trusted false true true)
      pc.doc := by
    rw [hs]; simp [pipeline]
  have hidv : s.idVal = none := by
    rw [hs]; simp [pipeline]
  by_cases hb : s.vres.1 = true
  · rw [if_pos hb]
    refine ⟨hcalls, by rw [hdv2], ?_⟩
    show finalDocOf s = _
    unfold finalDocOf
    rw [hidv, hd2]
  · rw [if_neg hb]
    exact ⟨hcalls, by rw [hdv2], hd2⟩

/-- Witness for C4 (amended): a concrete client insert under the
always-valid schema. -/
theorem c4_witness :
    (doValidate false okSchema .insert [.docA [("y", .prim (.str "s"))]] false none false
        none).cleanCalls =
      [{ snapshot := false, input := [("y", .prim (.str "s"))], getAutoValues := false,
         filter := true, autoConvert := true },
       { snapshot := true,
         input := okSchema.clean (mkCleanOpts .insert {} none false false true true)
           [("y", .prim (.str "s"))],
         getAutoValues := true, filter := false, autoConvert := false }] ∧
    (doValidate false okSchema .insert [.docA [("y", .prim (.str "s"))]] false none false
        none).validated =
      some (okSchema.clean (mkCleanOpts .insert {} none false true false false)
        (okSchema.clean (mkCleanOpts .insert {} none false false true true)
          [("y", .prim (.str "s"))])) ∧
    (doValidate false okSchema .insert [.docA [("y", .prim (.str "s"))]] false none false
        none).finalDoc =
      okSchema.clean (mkCleanOpts .insert {} none false false true true)
        [("y", .prim (.str "s"))] :=
  c4_client_snapshot_clean okSchema .insert [.docA [("y", .prim (.str "s"))]]
    { args1 := [.docA [("y", .prim (.str "s"))]], doc := [("y", .prim (.str "s"))],
      opts := {}, callbackPresent := false, selCache := none }
    false none false none (by decide) (by decide)

end Collection2
